import Mathlib

/-!
Shallow embedding of the reinforcement-learning training driver in
`src/main.py` (function `main`), together with spec-modelled versions of the
collaborating modules that the repository references but does not ship under
`src/` (the `RolloutStorage` buffer with its `insert`, `after_update` and
`compute_returns` operations, and the update engine's precondition).

Observations, hidden states, actions, rewards and masks are rationals (one
scalar, or one feature vector, per environment lane), batched as lists over
the N parallel lanes.  The policy network, the vectorised environment, the
optional GAIL discriminator and the update engine are external collaborators
and enter as function parameters.
-/

namespace IAM

/-- A per-lane observation: a feature vector of rationals. -/
abbrev Obs := List ℚ

/-- The per-lane `info` dict returned by `envs.step`: whether the key
`bad_transition` is present (artificial time-limit truncation marker) and
the optional `episode` summary reward. -/
structure Info where
  bad_transition : Bool
  episode : Option ℚ
  deriving Repr, DecidableEq

/-- The command-line arguments that the driver loop of `main` reads
(src/main.py lines 127–193), restricted to the fields the loop uses. -/
structure Cfg where
  num_steps : ℕ
  num_processes : ℕ
  num_env_steps : ℕ
  gamma : ℚ
  gae_lambda : ℚ
  use_gae : Bool
  gail : Bool
  flicker : Bool
  deriving Repr, DecidableEq

/-- Batched output of `actor_critic.act`: value estimates, sampled actions,
their log-probabilities, and the next recurrent hidden states. -/
structure ActOut where
  value : List ℚ
  action : List ℚ
  action_log_prob : List ℚ
  hidden : List ℚ
  deriving Repr, DecidableEq

/-- The policy collaborator: `act` and `get_value`, both functions of the
network parameters (abstracted into one rational blob) and a batch of
observations, hidden states and masks. -/
structure PolicyModel where
  act : ℚ → List Obs → List ℚ → List ℚ → ActOut
  get_value : ℚ → List Obs → List ℚ → List ℚ → List ℚ

/-- Batched output of one `envs.step` call. -/
structure StepOut (σ : Type) where
  state : σ
  obs : List Obs
  reward : List ℚ
  done : List Bool
  infos : List Info
  deriving Repr, DecidableEq

/-- The vectorised-environment collaborator: a deterministic transition
function on an abstract environment state, consuming one batch of actions. -/
def EnvStepFn (σ : Type) : Type := σ → List ℚ → StepOut σ

/-- The GAIL discriminator collaborator `discr.predict_reward`
(observation batch, action batch, discount, mask batch ↦ reward batch). -/
def PredictReward : Type := List Obs → List ℚ → ℚ → List ℚ → List ℚ

/-- Modelled from the spec (the `RolloutStorage` buffer of
`a2c_ppo_acktr.storage` is imported by `src/main.py` but its module is not
under `src/`): T+1 slots of observations, recurrent hidden states,
continuation masks and valid masks, T slots of actions, log-probs, value
predictions and rewards, and the fill counter `step` counting insertions
since the last `after_update` (spec sections 3 and 4.1).  Each slot is a
batch over the N lanes. -/
structure Rollouts where
  obs : List (List Obs)
  recurrent_hidden_states : List (List ℚ)
  masks : List (List ℚ)
  bad_masks : List (List ℚ)
  actions : List (List ℚ)
  action_log_probs : List (List ℚ)
  value_preds : List (List ℚ)
  rewards : List (List ℚ)
  step : ℕ
  deriving Repr, DecidableEq

/-- Modelled from the spec: a freshly constructed buffer (src/main.py lines
111–113) with zeroed slots, masks initialised to 1, and fill counter 0. -/
def Rollouts.init (T N : ℕ) : Rollouts where
  obs := List.replicate (T+1) (List.replicate N [])
  recurrent_hidden_states := List.replicate (T+1) (List.replicate N 0)
  masks := List.replicate (T+1) (List.replicate N 1)
  bad_masks := List.replicate (T+1) (List.replicate N 1)
  actions := List.replicate T (List.replicate N 0)
  action_log_probs := List.replicate T (List.replicate N 0)
  value_preds := List.replicate T (List.replicate N 0)
  rewards := List.replicate T (List.replicate N 0)
  step := 0

/-- Embedding of `rollouts.obs[0].copy_(obs)` (src/main.py line 116): seed
slot 0 of the buffer with the environments' initial reset observation. -/
def Rollouts.seedObs (r : Rollouts) (o : List Obs) : Rollouts :=
  { r with obs := r.obs.set 0 o }

/-- Modelled from the spec (section 4.1): `insert` appends to the next free
slot and fails when the buffer already holds T filled transition slots since
the last `after_update`.  The incoming observation, hidden state and the two
masks describe the situation after the step and land in slot `step+1`; the
per-step action, log-prob, value prediction and reward land in slot `step`,
matching the T+1 slot layout of spec section 3. -/
def Rollouts.insert (T : ℕ) (r : Rollouts) (o : List Obs)
    (rh a lp v rw m bm : List ℚ) : Option Rollouts :=
  if r.step < T then
    some { obs := r.obs.set (r.step+1) o
           recurrent_hidden_states := r.recurrent_hidden_states.set (r.step+1) rh
           masks := r.masks.set (r.step+1) m
           bad_masks := r.bad_masks.set (r.step+1) bm
           actions := r.actions.set r.step a
           action_log_probs := r.action_log_probs.set r.step lp
           value_preds := r.value_preds.set r.step v
           rewards := r.rewards.set r.step rw
           step := r.step + 1 }
  else none

/-- Modelled from the spec (section 4.1): `after_update` copies slot T's
observation, hidden state and masks into slot 0 — the carry-forward that
keeps rollouts continuous across cycles — and resets the fill counter; the
cycle-local rewards and actions are left as they are. -/
def Rollouts.after_update (T : ℕ) (r : Rollouts) : Rollouts :=
  { r with obs := r.obs.set 0 (r.obs.getD T [])
           recurrent_hidden_states :=
             r.recurrent_hidden_states.set 0 (r.recurrent_hidden_states.getD T [])
           masks := r.masks.set 0 (r.masks.getD T [])
           bad_masks := r.bad_masks.set 0 (r.bad_masks.getD T [])
           step := 0 }

/-- Length well-formedness of a buffer for horizon T: the slot lists have
their nominal lengths (the lane width is not constrained). -/
def Rollouts.wf (T : ℕ) (r : Rollouts) : Prop :=
  r.obs.length = T+1 ∧ r.recurrent_hidden_states.length = T+1 ∧
  r.masks.length = T+1 ∧ r.bad_masks.length = T+1 ∧
  r.actions.length = T ∧ r.action_log_probs.length = T ∧
  r.value_preds.length = T ∧ r.rewards.length = T

instance (T : ℕ) (r : Rollouts) : Decidable (r.wf T) := by
  unfold Rollouts.wf; infer_instance

/-- The update-engine collaborator `agent.update`: from the current
parameters, the filled buffer and the returns table it produces new
parameters and the reported `(value_loss, action_loss, dist_entropy)`. -/
def UpdateFn : Type := ℚ → Rollouts → List (List ℚ) → ℚ × ℚ × ℚ × ℚ

/-- Modelled from the spec (section 4.3, error conditions): the update
engine fails when the buffer holds fewer than T filled transitions;
otherwise it defers to the external update collaborator. -/
def checkedUpdate (T : ℕ) (agent_update : UpdateFn) (p : ℚ) (r : Rollouts)
    (rets : List (List ℚ)) : Option (ℚ × ℚ × ℚ × ℚ) :=
  if r.step < T then none else some (agent_update p r rets)

/-- Modelled from the spec (section 4.2, mode 1, with
`use_proper_time_limits = False`; spec section 9 marks the proper-time-limit
branch as ambiguous, so it is not modelled): N-step returns for one lane,
`return[t] = reward[t] + γ·mask[t+1]·return[t+1]`, seeded with
`return[T] = bootstrap`.  `ms` lists `mask[1..T]` (the masks tail). -/
def nstepReturns (g b : ℚ) : List ℚ → List ℚ → List ℚ
  | r :: rs, m :: ms =>
    let rest := nstepReturns g b rs ms
    (r + g * m * rest.headD b) :: rest
  | _, _ => []

/-- Modelled from the spec (section 4.2, mode 2, with
`use_proper_time_limits = False`): GAE advantages for one lane,
`δ[t] = reward[t] + γ·value[t+1]·mask[t+1] − value[t]` and
`advantage[t] = δ[t] + γ·λ·mask[t+1]·advantage[t+1]` with `advantage[T] = 0`
and `value[T] = bootstrap`.  `vs` lists `value[t..T-1]`, `ms` lists
`mask[t+1..T]`. -/
def gaeAdvantages (g lam b : ℚ) : List ℚ → List ℚ → List ℚ → List ℚ
  | r :: rs, v :: vs, m :: ms =>
    let rest := gaeAdvantages g lam b rs vs ms
    (r + g * vs.headD b * m - v + g * lam * m * rest.headD 0) :: rest
  | _, _, _ => []

/-- Modelled from the spec (section 4.2, mode 2): GAE returns for one lane,
`return[t] = advantage[t] + value[t]`. -/
def gaeReturns (g lam b : ℚ) (rs vs ms : List ℚ) : List ℚ :=
  List.zipWith (fun a v => a + v) (gaeAdvantages g lam b rs vs ms) vs

/-- Modelled from the spec (section 4.2): the estimator of
`rollouts.compute_returns` for one lane, selecting between GAE and plain
N-step returns on the `use_gae` flag. -/
def compute_returns (useGae : Bool) (g lam b : ℚ) (rs vs ms : List ℚ) :
    List ℚ :=
  if useGae then gaeReturns g lam b rs vs ms else nstepReturns g b rs ms

/-- Lane `i` of a T×N buffer table (one column). -/
def laneOf (t : List (List ℚ)) (i : ℕ) : List ℚ :=
  t.map fun row => row.getD i 0

/-- Modelled from the spec (section 4.2): the batch estimator — one
`compute_returns` chain per environment lane, using lane `i` of the
rewards, value predictions and masks-tail tables and lane `i` of the
bootstrap value `nv`. -/
def computeReturnsBatch (useGae : Bool) (g lam : ℚ) (nv : List ℚ) (N : ℕ)
    (r : Rollouts) : List (List ℚ) :=
  (List.range N).map fun i =>
    compute_returns useGae g lam (nv.getD i 0) (laneOf r.rewards i)
      (laneOf r.value_preds i) (laneOf (r.masks.drop 1) i)

/-- The per-lane flicker replacement of src/main.py lines 149–151: lanes
whose uniform draw exceeds 0.5 get their observation overwritten with zeros
(`obs[prob_flicker > 0.5] = 0`), the rest keep the stepped observation. -/
def flickerObs (draws : List ℚ) (o : List Obs) : List Obs :=
  List.zipWith (fun d ob => if (1:ℚ)/2 < d then ob.map (fun _ => (0:ℚ)) else ob)
    draws o

/-- The flicker condition of src/main.py line 151 (`prob_flicker > 0.5`) as
a subset of the reals, used to state the probability that a lane is
replaced under the per-lane uniform draw on [0,1). -/
def flickerEvent : Set ℝ := {x | 1/2 < x}

/-- Observable events of one driver iteration, in the order `main` performs
them.  `getValue b` records the bootstrap-value call, with `b` the
gradient-tracking flag (`false` because the call sits under
`torch.no_grad()` and is `.detach()`-ed, src/main.py lines 167–170). -/
inductive Ev where
  | act : ℕ → Ev
  | envStep : ℕ → Ev
  | insert : ℕ → Ev
  | getValue : Bool → Ev
  | overwriteReward : ℕ → Ev
  | computeReturns : Ev
  | update : Ev
  | afterUpdate : Ev
  deriving Repr, DecidableEq

/-- One body of the collection loop of `main` (src/main.py lines 138–165):
sample actions with the policy on slot `s` of the buffer, step the
environments, optionally flicker observations to zero, build the
continuation masks from `done` and the valid masks from the presence of the
`bad_transition` key, and insert everything into the buffer. -/
def collectStep {σ : Type} (cfg : Cfg) (pol : PolicyModel) (env : EnvStepFn σ)
    (draws : List ℚ) (p : ℚ) (es : σ) (r : Rollouts) (s : ℕ) :
    Option (σ × Rollouts) :=
  let ao := pol.act p (r.obs.getD s []) (r.recurrent_hidden_states.getD s [])
    (r.masks.getD s [])
  let so := env es ao.action
  let o2 := if cfg.flicker then flickerObs draws so.obs else so.obs
  let ms := so.done.map fun d => if d then (0:ℚ) else 1
  let bms := so.infos.map fun nf => if nf.bad_transition then (0:ℚ) else 1
  (r.insert cfg.num_steps o2 ao.hidden ao.action ao.action_log_prob ao.value
      so.reward ms bms).map
    fun r2 => (so.state, r2)

/-- The collection loop `for step in range(args.num_steps)` of `main`
(src/main.py lines 138–165), with `k` steps left to run and `s` the current
step index; returns the final environment/buffer pair together with the
emitted event trace. -/
def collectLoop {σ : Type} (cfg : Cfg) (pol : PolicyModel) (env : EnvStepFn σ)
    (draws : ℕ → List ℚ) (p : ℚ) :
    ℕ → ℕ → σ × Rollouts → Option ((σ × Rollouts) × List Ev)
  | 0, _, st => some (st, [])
  | k+1, s, st => do
    let st2 ← collectStep cfg pol env (draws s) p st.1 st.2 s
    let rest ← collectLoop cfg pol env draws p k (s+1) st2
    some (rest.1, Ev.act s :: Ev.envStep s :: Ev.insert s :: rest.2)

/-- The GAIL reward-overwrite loop of `main` (src/main.py lines 183–186):
for `k` remaining slots starting at slot `s`, overwrite the buffer reward of
the slot with `discr.predict_reward(obs[step], actions[step], γ,
masks[step])`, reading from the current buffer. -/
def gailOverwrite (predict_reward : PredictReward) (g : ℚ) :
    ℕ → ℕ → Rollouts → Rollouts × List Ev
  | 0, _, r => (r, [])
  | k+1, s, r =>
    let rw2 := r.rewards.set s
      (predict_reward (r.obs.getD s []) (r.actions.getD s []) g
        (r.masks.getD s []))
    let r2 := { r with rewards := rw2 }
    let rest := gailOverwrite predict_reward g k (s+1) r2
    (rest.1, Ev.overwriteReward s :: rest.2)

/-- The observable outcome of one driver iteration. -/
structure IterResult (σ : Type) where
  envState : σ
  preRollouts : Rollouts
  rollouts : Rollouts
  params : ℚ
  nextValue : List ℚ
  returnsTable : List (List ℚ)
  losses : ℚ × ℚ × ℚ × ℚ
  trace : List Ev
  deriving Repr, DecidableEq

/-- One iteration of the driver loop of `main` (src/main.py lines 138–193):
collect T steps, compute the bootstrap value from the final buffer slot
under `torch.no_grad()`, optionally overwrite rewards through the GAIL
discriminator, compute returns, run the update engine, and perform the
buffer's carry-forward `after_update`.  `preRollouts` is the buffer just
before `after_update`; `rollouts` the buffer handed to the next cycle. -/
def iterBody {σ : Type} (cfg : Cfg) (pol : PolicyModel) (env : EnvStepFn σ)
    (predict_reward : PredictReward) (agent_update : UpdateFn)
    (draws : ℕ → List ℚ) (p : ℚ) (es : σ) (r : Rollouts) :
    Option (IterResult σ) := do
  let col ← collectLoop cfg pol env draws p cfg.num_steps 0 (es, r)
  let r2 := col.1.2
  let nv := pol.get_value p (r2.obs.getD cfg.num_steps [])
    (r2.recurrent_hidden_states.getD cfg.num_steps [])
    (r2.masks.getD cfg.num_steps [])
  let gw := if cfg.gail then gailOverwrite predict_reward cfg.gamma
      cfg.num_steps 0 r2
    else (r2, [])
  let rets := computeReturnsBatch cfg.use_gae cfg.gamma cfg.gae_lambda nv
    cfg.num_processes gw.1
  let ur ← checkedUpdate cfg.num_steps agent_update p gw.1 rets
  some { envState := col.1.1
         preRollouts := gw.1
         rollouts := gw.1.after_update cfg.num_steps
         params := ur.1
         nextValue := nv
         returnsTable := rets
         losses := ur
         trace := col.2 ++ [Ev.getValue false] ++ gw.2
           ++ [Ev.computeReturns, Ev.update, Ev.afterUpdate] }

/-- Cumulative state of the training run. -/
structure RunState (σ : Type) where
  envState : σ
  rollouts : Rollouts
  params : ℚ
  trace : List Ev
  deriving Repr, DecidableEq

/-- The outer loop `for j in range(num_updates)` of `main` (src/main.py
line 130), with `n` iterations left and `j` the current iteration index;
`draws` supplies the per-iteration, per-step numpy flicker draws. -/
def runLoop {σ : Type} (cfg : Cfg) (pol : PolicyModel) (env : EnvStepFn σ)
    (predict_reward : PredictReward) (agent_update : UpdateFn)
    (draws : ℕ → ℕ → List ℚ) : ℕ → ℕ → RunState σ → Option (RunState σ)
  | 0, _, st => some st
  | n+1, j, st => do
    let res ← iterBody cfg pol env predict_reward agent_update (draws j)
      st.params st.envState st.rollouts
    runLoop cfg pol env predict_reward agent_update draws n (j+1)
      { envState := res.envState
        rollouts := res.rollouts
        params := res.params
        trace := st.trace ++ res.trace }

/-- The number of update cycles of `main` (src/main.py lines 127–128):
`int(num_env_steps) // num_steps // num_processes`, in that order. -/
def num_updates (cfg : Cfg) : ℕ :=
  cfg.num_env_steps / cfg.num_steps / cfg.num_processes

/-- The whole training run of `main`: build a fresh buffer, seed its slot 0
with the environments' reset observation (src/main.py lines 115–116), and
run `num_updates` iterations of the driver loop. -/
def runMain {σ : Type} (cfg : Cfg) (pol : PolicyModel) (env : EnvStepFn σ)
    (predict_reward : PredictReward) (agent_update : UpdateFn)
    (draws : ℕ → ℕ → List ℚ) (es0 : σ) (initObs : List Obs) (p0 : ℚ) :
    Option (RunState σ) :=
  runLoop cfg pol env predict_reward agent_update draws (num_updates cfg) 0
    { envState := es0
      rollouts := (Rollouts.init cfg.num_steps cfg.num_processes).seedObs initObs
      params := p0
      trace := [] }

/-- The expected event trace of the stretch of the collection loop that
runs `k` steps starting at step index `s`: per step, the policy's `act`,
then the environment step, then the buffer insertion. -/
def collectTrace : ℕ → ℕ → List Ev
  | _, 0 => []
  | s, k+1 => Ev.act s :: Ev.envStep s :: Ev.insert s :: collectTrace (s+1) k

/-- The expected event trace of the GAIL reward-overwrite loop over `k`
slots starting at slot `s`. -/
def gailTrace : ℕ → ℕ → List Ev
  | _, 0 => []
  | s, k+1 => Ev.overwriteReward s :: gailTrace (s+1) k

/-- The expected event trace of one full driver iteration: T interleaved
act/step/insert triples, the no-grad bootstrap-value call, the GAIL reward
overwrites when enabled, then returns estimation, update, and the
carry-forward reset. -/
def iterTrace (T : ℕ) (gailOn : Bool) : List Ev :=
  collectTrace 0 T ++ [Ev.getValue false]
    ++ (if gailOn then gailTrace 0 T else [])
    ++ [Ev.computeReturns, Ev.update, Ev.afterUpdate]

/-- The expected event trace of `n` driver iterations. -/
def runTrace (T : ℕ) (gailOn : Bool) : ℕ → List Ev
  | 0 => []
  | n+1 => iterTrace T gailOn ++ runTrace T gailOn n

/-- Whether an event is an environment step. -/
def isEnvStepEv : Ev → Bool
  | Ev.envStep _ => true
  | _ => false

/-! ### Concrete collaborators, used to exercise the driver on closed inputs -/

/-- A trivial one-lane policy. -/
def tPol : PolicyModel where
  act := fun _ _ _ _ =>
    { value := [0], action := [0], action_log_prob := [0], hidden := [0] }
  get_value := fun _ _ _ _ => [0]

/-- A stateless one-lane environment: observation `[1]`, reward 1, no
termination, empty info dict. -/
def tEnv : EnvStepFn Unit := fun _ _ =>
  { state := (), obs := [[1]], reward := [1], done := [false],
    infos := [{ bad_transition := false, episode := none }] }

/-- A trivial discriminator reward. -/
def tPred : PredictReward := fun _ _ _ _ => [7]

/-- A trivial update engine that keeps the parameters. -/
def tUpd : UpdateFn := fun p _ _ => (p, 0, 0, 0)

/-- A tiny configuration: horizon 1, one lane, one update cycle. -/
def tCfg : Cfg where
  num_steps := 1
  num_processes := 1
  num_env_steps := 1
  gamma := 0
  gae_lambda := 0
  use_gae := false
  gail := false
  flicker := false

/-- The buffer the tiny driver starts from: fresh, seeded with reset
observation `[5]`. -/
def tR0 : Rollouts := (Rollouts.init 1 1).seedObs [[5]]

/-- A junk iteration result, used only as a `getD` fallback. -/
def tJunk : IterResult Unit where
  envState := ()
  preRollouts := Rollouts.init 1 1
  rollouts := Rollouts.init 1 1
  params := 0
  nextValue := []
  returnsTable := []
  losses := (0, 0, 0, 0)
  trace := []

/-- The concrete result of one driver iteration on the tiny fixtures. -/
def tRes : IterResult Unit :=
  (iterBody tCfg tPol tEnv tPred tUpd (fun _ => [0]) 0 () tR0).getD tJunk

/-- The concrete result of the tiny collection phase. -/
def tCol : (Unit × Rollouts) × List Ev :=
  (collectLoop tCfg tPol tEnv (fun _ => [0]) 0 tCfg.num_steps 0
    ((), tR0)).getD (((), tR0), [])

/-- The tiny configuration with the GAIL discriminator enabled. -/
def tCfgG : Cfg := { tCfg with gail := true }

/-- The concrete result of one driver iteration with GAIL enabled. -/
def tResG : IterResult Unit :=
  (iterBody tCfgG tPol tEnv tPred tUpd (fun _ => [0]) 0 () tR0).getD tJunk

/-- The tiny configuration with observation flickering enabled. -/
def tCfgF : Cfg := { tCfg with flicker := true }

/-- The concrete result of one collection step with flickering enabled and
per-lane draw 1. -/
def tCS : Unit × Rollouts :=
  (collectStep tCfgF tPol tEnv [1] 0 () tR0 0).getD ((), tR0)

/-- The concrete result of one collection step without flickering. -/
def tCS0 : Unit × Rollouts :=
  (collectStep tCfg tPol tEnv [0] 0 () tR0 0).getD ((), tR0)

/-- The batched `step` output of the tiny environment. -/
def tSo : StepOut Unit :=
  { state := (), obs := [[1]], reward := [1], done := [false],
    infos := [{ bad_transition := false, episode := none }] }

/-- The batched `act` output of the tiny policy. -/
def tAo : ActOut :=
  { value := [0], action := [0], action_log_prob := [0], hidden := [0] }

/-! ### Small list lemmas -/

theorem getD_set_self {α : Type} :
    ∀ (l : List α) (n : ℕ) (a d : α), n < l.length →
      (l.set n a).getD n d = a
  | _ :: _, 0, _, _, _ => rfl
  | _ :: xs, n+1, a, d, h => getD_set_self xs n a d (Nat.lt_of_succ_lt_succ h)

theorem getD_set_ne {α : Type} :
    ∀ (l : List α) (m n : ℕ) (a d : α), m ≠ n →
      (l.set m a).getD n d = l.getD n d
  | [], _, _, _, _, _ => rfl
  | _ :: _, 0, 0, _, _, h => absurd rfl h
  | _ :: _, 0, _+1, _, _, _ => rfl
  | _ :: _, _+1, 0, _, _, _ => rfl
  | _ :: xs, m+1, n+1, a, d, h =>
    getD_set_ne xs m n a d fun hh => h (by rw [hh])

theorem getD_take_self {α : Type} :
    ∀ (l : List α) (t : ℕ) (d : α), (l.take (t+1)).getD t d = l.getD t d
  | [], _, _ => rfl
  | _ :: _, 0, _ => rfl
  | _ :: xs, t+1, d => getD_take_self xs t d

theorem getD_map_mask : ∀ (l : List Bool) (i : ℕ),
    ((l.map fun d => if d then (0:ℚ) else 1).getD i 1) =
      if l.getD i false then 0 else 1
  | [], _ => rfl
  | _ :: _, 0 => rfl
  | _ :: l, i+1 => getD_map_mask l i

theorem getD_map_badmask : ∀ (l : List Info) (i : ℕ),
    ((l.map fun nf => if nf.bad_transition then (0:ℚ) else 1).getD i 1) =
      if (l.getD i { bad_transition := false, episode := none
        }).bad_transition then 0 else 1
  | [], _ => rfl
  | _ :: _, 0 => rfl
  | _ :: l, i+1 => getD_map_badmask l i

theorem flickerObs_getD : ∀ (ds : List ℚ) (os : List Obs) (i : ℕ),
    i < os.length → ds.length = os.length →
    (flickerObs ds os).getD i [] =
      if 1/2 < ds.getD i 0 then (os.getD i []).map (fun _ => (0:ℚ))
      else os.getD i [] := by
  intro ds
  induction ds with
  | nil =>
    intro os i hi hl
    rw [← hl] at hi
    simp at hi
  | cons d ds ih =>
    intro os i hi hl
    cases os with
    | nil => simp at hi
    | cons o os =>
      cases i with
      | zero => rfl
      | succ i => exact ih os i (by simpa using hi) (by simpa using hl)

theorem flickerEvent_volume :
    MeasureTheory.volume (flickerEvent ∩ Set.Ico (0:ℝ) 1) =
      ENNReal.ofReal (1/2) := by
  have hset : flickerEvent ∩ Set.Ico (0:ℝ) 1 = Set.Ioo (1/2 : ℝ) 1 := by
    ext x
    simp only [flickerEvent, Set.mem_inter_iff, Set.mem_setOf_eq,
      Set.mem_Ico, Set.mem_Ioo]
    constructor
    · rintro ⟨h1, _, h3⟩
      exact ⟨h1, h3⟩
    · rintro ⟨h1, h2⟩
      exact ⟨h1, by linarith, h2⟩
  rw [hset, Real.volume_Ioo]
  norm_num

/-! ### Terminal steps block backward leakage in the estimator -/

theorem nstepReturns_terminal (g b : ℚ) :
    ∀ (t : ℕ) (rs ms : List ℚ), rs.length = ms.length → t < rs.length →
      ms.getD t 1 = 0 → (nstepReturns g b rs ms).getD t 0 = rs.getD t 0 := by
  intro t
  induction t with
  | zero =>
    intro rs ms hlen ht hm
    cases rs with
    | nil => simp at ht
    | cons r rs' =>
      cases ms with
      | nil => simp at hlen
      | cons m ms' =>
        simp only [List.getD_cons_zero] at hm
        simp [nstepReturns, hm]
  | succ t ih =>
    intro rs ms hlen ht hm
    cases rs with
    | nil => simp at ht
    | cons r rs' =>
      cases ms with
      | nil => simp at hlen
      | cons m ms' =>
        have := ih rs' ms' (by simpa using hlen) (by simpa using ht)
          (by simpa using hm)
        simpa [nstepReturns] using this

theorem gaeReturns_terminal (g lam b : ℚ) :
    ∀ (t : ℕ) (rs vs ms : List ℚ), rs.length = vs.length →
      vs.length = ms.length → t < rs.length → ms.getD t 1 = 0 →
      (gaeReturns g lam b rs vs ms).getD t 0 = rs.getD t 0 := by
  intro t
  induction t with
  | zero =>
    intro rs vs ms hrv hvm ht hm
    cases rs with
    | nil => simp at ht
    | cons r rs' =>
      cases vs with
      | nil => simp at hrv
      | cons v vs' =>
        cases ms with
        | nil => simp at hvm
        | cons m ms' =>
          simp only [List.getD_cons_zero] at hm
          simp [gaeReturns, gaeAdvantages, hm]
  | succ t ih =>
    intro rs vs ms hrv hvm ht hm
    cases rs with
    | nil => simp at ht
    | cons r rs' =>
      cases vs with
      | nil => simp at hrv
      | cons v vs' =>
        cases ms with
        | nil => simp at hvm
        | cons m ms' =>
          have := ih rs' vs' ms' (by simpa using hrv) (by simpa using hvm)
            (by simpa using ht) (by simpa using hm)
          simpa [gaeReturns, gaeAdvantages] using this

/-- Claim C6: past a true terminal (`mask[t+1] = 0`), the return at step `t`
produced by `compute_returns` is identical across any two inputs that agree
on rewards and values up to step `t` and on all masks, but differ
arbitrarily in the bootstrap value and in rewards and values at steps after
`t` — terminal steps block all backward leakage of downstream signal, in
both the N-step and the GAE mode.  (`ms` lists `mask[1..T]`, so its entry
`t` is `mask[t+1]`.) -/
theorem claim_C6 (useGae : Bool) (g lam b b' : ℚ)
    (rs rs' vs vs' ms : List ℚ) (t : ℕ)
    (hr : rs.length = ms.length) (hv : vs.length = ms.length)
    (hr' : rs'.length = ms.length) (hv' : vs'.length = ms.length)
    (ht : t < ms.length) (hm : ms.getD t 1 = 0)
    (har : rs.take (t+1) = rs'.take (t+1))
    (_hav : vs.take (t+1) = vs'.take (t+1)) :
    (compute_returns useGae g lam b rs vs ms).getD t 0 =
      (compute_returns useGae g lam b' rs' vs' ms).getD t 0 := by
  have key : ∀ (bb : ℚ) (rr vv : List ℚ), rr.length = ms.length →
      vv.length = ms.length →
      (compute_returns useGae g lam bb rr vv ms).getD t 0 = rr.getD t 0 := by
    intro bb rr vv h1 h2
    cases useGae with
    | false =>
      simpa [compute_returns] using
        nstepReturns_terminal g bb t rr ms (h1.trans h2.symm ▸ h1)
          (h1 ▸ ht) hm
    | true =>
      simpa [compute_returns] using
        gaeReturns_terminal g lam bb t rr vv ms (h1.trans h2.symm) h2
          (h1 ▸ ht) hm
  rw [key b rs vs hr hv, key b' rs' vs' hr' hv']
  rw [← getD_take_self rs t 0, ← getD_take_self rs' t 0, har]

/-- Witness for C6: a length-2 lane whose first transition is a true
terminal; the two inputs differ in the bootstrap and in every reward/value
after step 0, yet return 0 agrees. -/
theorem claim_C6_witness :
    ([0, 1] : List ℚ).getD 0 1 = 0 ∧
      (compute_returns true (1/2) (3/4) 100 [2, 9] [5, 8] [0, 1]).getD 0 0 =
        (compute_returns true (1/2) (3/4) (-100) [2, 7] [5, 6] [0, 1]).getD 0 0 :=
  ⟨by decide,
    claim_C6 true (1/2) (3/4) 100 (-100) [2, 9] [2, 7] [5, 8] [5, 6] [0, 1] 0
      (by decide) (by decide) (by decide) (by decide) (by decide) (by decide)
      (by decide) (by decide)⟩

/-! ### Driver-loop lemmas -/

theorem after_update_step (T : ℕ) (r : Rollouts) :
    (r.after_update T).step = 0 := rfl

theorem seedObs_step (r : Rollouts) (o : List Obs) : (r.seedObs o).step = r.step :=
  rfl

theorem collectStep_spec {σ : Type} (cfg : Cfg) (pol : PolicyModel)
    (env : EnvStepFn σ) (draws : List ℚ) (p : ℚ) (es : σ) (r : Rollouts)
    (s : ℕ) (h : r.step < cfg.num_steps) :
    ∃ es2 r2, collectStep cfg pol env draws p es r s = some (es2, r2) ∧
      r2.step = r.step + 1 ∧ ∀ T, r.wf T → r2.wf T := by
  unfold collectStep Rollouts.insert
  simp only [if_pos h, Option.map_some]
  refine ⟨_, _, rfl, rfl, ?_⟩
  intro T hw
  simp only [Rollouts.wf, List.length_set] at hw ⊢
  exact hw

theorem collectStep_fields {σ : Type} (cfg : Cfg) (pol : PolicyModel)
    (env : EnvStepFn σ) (draws : List ℚ) (p : ℚ) (es es2 : σ)
    (r r2 : Rollouts) (s : ℕ) (ao : ActOut) (so : StepOut σ)
    (hact : pol.act p (r.obs.getD s []) (r.recurrent_hidden_states.getD s [])
      (r.masks.getD s []) = ao)
    (henv : env es ao.action = so)
    (hlt : r.step < cfg.num_steps)
    (h : collectStep cfg pol env draws p es r s = some (es2, r2)) :
    es2 = so.state ∧
    r2.obs = r.obs.set (r.step+1)
      (if cfg.flicker then flickerObs draws so.obs else so.obs) ∧
    r2.recurrent_hidden_states =
      r.recurrent_hidden_states.set (r.step+1) ao.hidden ∧
    r2.masks = r.masks.set (r.step+1)
      (so.done.map fun d => if d then (0:ℚ) else 1) ∧
    r2.bad_masks = r.bad_masks.set (r.step+1)
      (so.infos.map fun nf => if nf.bad_transition then (0:ℚ) else 1) ∧
    r2.actions = r.actions.set r.step ao.action ∧
    r2.action_log_probs = r.action_log_probs.set r.step ao.action_log_prob ∧
    r2.value_preds = r.value_preds.set r.step ao.value ∧
    r2.rewards = r.rewards.set r.step so.reward := by
  unfold collectStep at h
  simp only [hact, henv, Rollouts.insert, if_pos hlt, Option.map_some,
    Option.map_some', Option.some.injEq, Prod.mk.injEq] at h
  obtain ⟨he, hr⟩ := h
  subst hr
  exact ⟨he.symm, rfl, rfl, rfl, rfl, rfl, rfl, rfl, rfl⟩

theorem collectLoop_spec {σ : Type} (cfg : Cfg) (pol : PolicyModel)
    (env : EnvStepFn σ) (draws : ℕ → List ℚ) (p : ℚ) :
    ∀ (k s : ℕ) (st : σ × Rollouts), st.2.step = s →
      s + k ≤ cfg.num_steps →
      ∃ st2, collectLoop cfg pol env draws p k s st =
          some (st2, collectTrace s k) ∧
        st2.2.step = s + k ∧ ∀ T, st.2.wf T → st2.2.wf T := by
  intro k
  induction k with
  | zero =>
    intro s st h1 _
    exact ⟨st, by simp [collectLoop, collectTrace], by simpa using h1,
      fun T hw => hw⟩
  | succ k ih =>
    intro s st h1 h2
    have hlt : st.2.step < cfg.num_steps := by omega
    obtain ⟨es2, r2, hstep, hinc, hwf⟩ :=
      collectStep_spec cfg pol env (draws s) p st.1 st.2 s hlt
    obtain ⟨st2, hloop, hst2, hwf2⟩ := ih (s+1) (es2, r2) (by simp [hinc, h1])
      (by omega)
    refine ⟨st2, ?_, by omega, fun T hw => hwf2 T (hwf T hw)⟩
    simp [collectLoop, hstep, hloop, collectTrace]

theorem gailOverwrite_fst (pr : PredictReward) (g : ℚ) :
    ∀ (k s : ℕ) (r : Rollouts),
      (gailOverwrite pr g k s r).1.obs = r.obs ∧
      (gailOverwrite pr g k s r).1.recurrent_hidden_states =
        r.recurrent_hidden_states ∧
      (gailOverwrite pr g k s r).1.masks = r.masks ∧
      (gailOverwrite pr g k s r).1.bad_masks = r.bad_masks ∧
      (gailOverwrite pr g k s r).1.actions = r.actions ∧
      (gailOverwrite pr g k s r).1.action_log_probs = r.action_log_probs ∧
      (gailOverwrite pr g k s r).1.value_preds = r.value_preds ∧
      (gailOverwrite pr g k s r).1.rewards.length = r.rewards.length ∧
      (gailOverwrite pr g k s r).1.step = r.step := by
  intro k
  induction k with
  | zero => intro s r; exact ⟨rfl, rfl, rfl, rfl, rfl, rfl, rfl, rfl, rfl⟩
  | succ k ih =>
    intro s r
    simpa [gailOverwrite, List.length_set] using
      ih (s+1) { r with rewards := r.rewards.set s (pr (r.obs.getD s [])
        (r.actions.getD s []) g (r.masks.getD s [])) }

theorem gailOverwrite_snd (pr : PredictReward) (g : ℚ) :
    ∀ (k s : ℕ) (r : Rollouts), (gailOverwrite pr g k s r).2 = gailTrace s k := by
  intro k
  induction k with
  | zero => intro s r; rfl
  | succ k ih => intro s r; simp [gailOverwrite, gailTrace, ih]

theorem gailOverwrite_wf (pr : PredictReward) (g : ℚ) (k s : ℕ) (r : Rollouts)
    (T : ℕ) (hw : r.wf T) : (gailOverwrite pr g k s r).1.wf T := by
  obtain ⟨h1, h2, h3, h4, h5, h6, h7, h8, _⟩ := gailOverwrite_fst pr g k s r
  unfold Rollouts.wf at hw ⊢
  rw [h1, h2, h3, h4, h5, h6, h7, h8]
  exact hw

theorem iterBody_props {σ : Type} (cfg : Cfg) (pol : PolicyModel)
    (env : EnvStepFn σ) (predict_reward : PredictReward)
    (agent_update : UpdateFn) (draws : ℕ → List ℚ) (p : ℚ) (es : σ)
    (r : Rollouts) (h0 : r.step = 0) (res : IterResult σ)
    (h : iterBody cfg pol env predict_reward agent_update draws p es r =
      some res) :
    res.trace = iterTrace cfg.num_steps cfg.gail ∧
    res.rollouts = res.preRollouts.after_update cfg.num_steps ∧
    res.preRollouts.step = cfg.num_steps ∧
    (∀ T, r.wf T → res.preRollouts.wf T) := by
  obtain ⟨st2, hcol, hstep, hwf⟩ := collectLoop_spec cfg pol env draws p
    cfg.num_steps 0 (es, r) h0 (by omega)
  have hs : st2.2.step = cfg.num_steps := by simpa using hstep
  unfold iterBody at h
  rw [hcol] at h
  cases hg : cfg.gail with
  | false =>
    simp only [hg, Bool.false_eq_true, if_false, Option.bind_eq_bind,
      Option.some_bind, checkedUpdate, hs, Nat.lt_irrefl, if_neg,
      Option.some.injEq] at h
    subst h
    refine ⟨?_, rfl, hs, ?_⟩
    · simp [iterTrace, hg]
    · intro T hw
      exact hwf T hw
  | true =>
    have hg9 := (gailOverwrite_fst predict_reward cfg.gamma cfg.num_steps 0
      st2.2).2.2.2.2.2.2.2.2
    have hnlt : ¬ (gailOverwrite predict_reward cfg.gamma cfg.num_steps 0
        st2.2).1.step < cfg.num_steps := by
      rw [hg9, hs]
      exact Nat.lt_irrefl _
    simp only [hg, if_true, Option.bind_eq_bind, Option.some_bind,
      checkedUpdate, if_neg hnlt, Option.some.injEq] at h
    subst h
    refine ⟨?_, rfl, by rw [hg9]; exact hs, ?_⟩
    · simp [iterTrace, hg, gailOverwrite_snd]
    · intro T hw
      exact gailOverwrite_wf predict_reward cfg.gamma cfg.num_steps 0 st2.2 T
        (hwf T hw)

theorem iterBody_isSome {σ : Type} (cfg : Cfg) (pol : PolicyModel)
    (env : EnvStepFn σ) (predict_reward : PredictReward)
    (agent_update : UpdateFn) (draws : ℕ → List ℚ) (p : ℚ) (es : σ)
    (r : Rollouts) (h0 : r.step = 0) :
    (iterBody cfg pol env predict_reward agent_update draws p es r).isSome := by
  obtain ⟨st2, hcol, hstep, _⟩ := collectLoop_spec cfg pol env draws p
    cfg.num_steps 0 (es, r) h0 (by omega)
  have hs : st2.2.step = cfg.num_steps := by simpa using hstep
  unfold iterBody
  rw [hcol]
  cases hg : cfg.gail with
  | false => simp [checkedUpdate, hs]
  | true =>
    have hg9 := (gailOverwrite_fst predict_reward cfg.gamma cfg.num_steps 0
      st2.2).2.2.2.2.2.2.2.2
    simp [checkedUpdate, hg9, hs]

theorem gailOverwrite_rewards_lt (pr : PredictReward) (g : ℚ) :
    ∀ (k s t : ℕ) (r : Rollouts), t < s →
      (gailOverwrite pr g k s r).1.rewards.getD t [] =
        r.rewards.getD t [] := by
  intro k
  induction k with
  | zero => intro s t r _; rfl
  | succ k ih =>
    intro s t r ht
    simp only [gailOverwrite]
    rw [ih (s+1) t _ (by omega)]
    exact getD_set_ne _ s t _ [] (by omega)

theorem gailOverwrite_rewards (pr : PredictReward) (g : ℚ) :
    ∀ (k s : ℕ) (r : Rollouts), (∀ j, j < k → s + j < r.rewards.length) →
      ∀ j, j < k →
        (gailOverwrite pr g k s r).1.rewards.getD (s+j) [] =
          pr (r.obs.getD (s+j) []) (r.actions.getD (s+j) []) g
            (r.masks.getD (s+j) []) := by
  intro k
  induction k with
  | zero => intro s r _ j hj; omega
  | succ k ih =>
    intro s r hlen j hj
    simp only [gailOverwrite]
    cases j with
    | zero =>
      rw [gailOverwrite_rewards_lt pr g k (s+1) (s+0) _ (by omega)]
      have hs : s < r.rewards.length := by
        have := hlen 0 (by omega)
        omega
      simpa using getD_set_self r.rewards s _ [] hs
    | succ j =>
      have heq : s + (j+1) = (s+1) + j := by omega
      rw [heq]
      refine ih (s+1) _ ?_ j (by omega)
      intro jj hjj
      have h2 := hlen (jj+1) (by omega)
      simp only [List.length_set]
      omega

theorem iterBody_nextValue {σ : Type} (cfg : Cfg) (pol : PolicyModel)
    (env : EnvStepFn σ) (predict_reward : PredictReward)
    (agent_update : UpdateFn) (draws : ℕ → List ℚ) (p : ℚ) (es : σ)
    (r : Rollouts) (st2 : σ × Rollouts) (trc : List Ev)
    (hc : collectLoop cfg pol env draws p cfg.num_steps 0 (es, r) =
      some (st2, trc))
    (res : IterResult σ)
    (h : iterBody cfg pol env predict_reward agent_update draws p es r =
      some res) :
    res.nextValue = pol.get_value p (st2.2.obs.getD cfg.num_steps [])
      (st2.2.recurrent_hidden_states.getD cfg.num_steps [])
      (st2.2.masks.getD cfg.num_steps []) := by
  unfold iterBody at h
  rw [hc] at h
  simp only [Option.bind_eq_bind, Option.some_bind, Option.bind_eq_some,
    Option.some.injEq] at h
  obtain ⟨ur, _, h⟩ := h
  subst h
  rfl

theorem iterBody_preRollouts {σ : Type} (cfg : Cfg) (pol : PolicyModel)
    (env : EnvStepFn σ) (predict_reward : PredictReward)
    (agent_update : UpdateFn) (draws : ℕ → List ℚ) (p : ℚ) (es : σ)
    (r : Rollouts) (st2 : σ × Rollouts) (trc : List Ev)
    (hc : collectLoop cfg pol env draws p cfg.num_steps 0 (es, r) =
      some (st2, trc))
    (res : IterResult σ)
    (h : iterBody cfg pol env predict_reward agent_update draws p es r =
      some res) :
    res.preRollouts = (if cfg.gail then
      gailOverwrite predict_reward cfg.gamma cfg.num_steps 0 st2.2
    else (st2.2, [])).1 := by
  unfold iterBody at h
  rw [hc] at h
  simp only [Option.bind_eq_bind, Option.some_bind, Option.bind_eq_some,
    Option.some.injEq] at h
  obtain ⟨ur, _, h⟩ := h
  subst h
  rfl

theorem runLoop_spec {σ : Type} (cfg : Cfg) (pol : PolicyModel)
    (env : EnvStepFn σ) (predict_reward : PredictReward)
    (agent_update : UpdateFn) (draws : ℕ → ℕ → List ℚ) :
    ∀ (n j : ℕ) (st : RunState σ), st.rollouts.step = 0 →
      ∃ st2, runLoop cfg pol env predict_reward agent_update draws n j st =
          some st2 ∧
        st2.trace = st.trace ++ runTrace cfg.num_steps cfg.gail n := by
  intro n
  induction n with
  | zero => intro j st _; exact ⟨st, rfl, by simp [runTrace]⟩
  | succ n ih =>
    intro j st h0
    have hsome := iterBody_isSome cfg pol env predict_reward agent_update
      (draws j) st.params st.envState st.rollouts h0
    obtain ⟨res, hres⟩ := Option.isSome_iff_exists.mp hsome
    obtain ⟨htr, hroll, _, _⟩ := iterBody_props cfg pol env predict_reward
      agent_update (draws j) st.params st.envState st.rollouts h0 res hres
    have hstep0 : res.rollouts.step = 0 := by rw [hroll]; rfl
    obtain ⟨st2, hloop, htr2⟩ := ih (j+1)
      ⟨res.envState, res.rollouts, res.params, st.trace ++ res.trace⟩ hstep0
    refine ⟨st2, ?_, ?_⟩
    · simp only [runLoop, Option.bind_eq_bind, hres, Option.some_bind]
      exact hloop
    · rw [htr2]
      simp [runTrace, htr, List.append_assoc]

theorem runMain_spec {σ : Type} (cfg : Cfg) (pol : PolicyModel)
    (env : EnvStepFn σ) (predict_reward : PredictReward)
    (agent_update : UpdateFn) (draws : ℕ → ℕ → List ℚ) (es0 : σ)
    (initObs : List Obs) (p0 : ℚ) :
    ∃ st2, runMain cfg pol env predict_reward agent_update draws es0 initObs
        p0 = some st2 ∧
      st2.trace = runTrace cfg.num_steps cfg.gail (num_updates cfg) := by
  obtain ⟨st2, h1, h2⟩ := runLoop_spec cfg pol env predict_reward agent_update
    draws (num_updates cfg) 0
    { envState := es0
      rollouts := (Rollouts.init cfg.num_steps cfg.num_processes).seedObs initObs
      params := p0
      trace := [] } rfl
  exact ⟨st2, h1, by simpa using h2⟩

/-! ### Independence from the flicker draws when flickering is off -/

theorem collectStep_draws_indep {σ : Type} (cfg : Cfg) (pol : PolicyModel)
    (env : EnvStepFn σ) (dA dB : List ℚ) (p : ℚ) (es : σ) (r : Rollouts)
    (s : ℕ) (hf : cfg.flicker = false) :
    collectStep cfg pol env dA p es r s = collectStep cfg pol env dB p es r s := by
  simp [collectStep, hf]

theorem collectLoop_draws_indep {σ : Type} (cfg : Cfg) (pol : PolicyModel)
    (env : EnvStepFn σ) (dA dB : ℕ → List ℚ) (p : ℚ)
    (hf : cfg.flicker = false) :
    ∀ (k s : ℕ) (st : σ × Rollouts),
      collectLoop cfg pol env dA p k s st =
        collectLoop cfg pol env dB p k s st := by
  intro k
  induction k with
  | zero => intro s st; rfl
  | succ k ih =>
    intro s st
    simp only [collectLoop]
    rw [collectStep_draws_indep cfg pol env (dA s) (dB s) p st.1 st.2 s hf]
    cases collectStep cfg pol env (dB s) p st.1 st.2 s with
    | none => rfl
    | some st2 =>
      simp only [Option.bind_eq_bind, Option.some_bind]
      rw [ih (s+1) st2]

theorem iterBody_draws_indep {σ : Type} (cfg : Cfg) (pol : PolicyModel)
    (env : EnvStepFn σ) (predict_reward : PredictReward)
    (agent_update : UpdateFn) (dA dB : ℕ → List ℚ) (p : ℚ) (es : σ)
    (r : Rollouts) (hf : cfg.flicker = false) :
    iterBody cfg pol env predict_reward agent_update dA p es r =
      iterBody cfg pol env predict_reward agent_update dB p es r := by
  unfold iterBody
  rw [collectLoop_draws_indep cfg pol env dA dB p hf cfg.num_steps 0 (es, r)]

theorem runLoop_draws_indep {σ : Type} (cfg : Cfg) (pol : PolicyModel)
    (env : EnvStepFn σ) (predict_reward : PredictReward)
    (agent_update : UpdateFn) (dA dB : ℕ → ℕ → List ℚ)
    (hf : cfg.flicker = false) :
    ∀ (n j : ℕ) (st : RunState σ),
      runLoop cfg pol env predict_reward agent_update dA n j st =
        runLoop cfg pol env predict_reward agent_update dB n j st := by
  intro n
  induction n with
  | zero => intro j st; rfl
  | succ n ih =>
    intro j st
    simp only [runLoop]
    rw [iterBody_draws_indep cfg pol env predict_reward agent_update (dA j)
      (dB j) st.params st.envState st.rollouts hf]
    cases iterBody cfg pol env predict_reward agent_update (dB j) st.params
      st.envState st.rollouts with
    | none => rfl
    | some res =>
      simp only [Option.bind_eq_bind, Option.some_bind]
      rw [ih (j+1) _]

/-! ### Event counting -/

theorem collectTrace_envCount :
    ∀ (k s : ℕ), ((collectTrace s k).filter isEnvStepEv).length = k := by
  intro k
  induction k with
  | zero => intro s; rfl
  | succ k ih => intro s; simp [collectTrace, isEnvStepEv, ih]

theorem gailTrace_envCount :
    ∀ (k s : ℕ), ((gailTrace s k).filter isEnvStepEv).length = 0 := by
  intro k
  induction k with
  | zero => intro s; rfl
  | succ k ih => intro s; simp [gailTrace, isEnvStepEv, ih]

theorem iterTrace_envCount (T : ℕ) (gailOn : Bool) :
    ((iterTrace T gailOn).filter isEnvStepEv).length = T := by
  cases gailOn <;>
    simp [iterTrace, List.filter_append, collectTrace_envCount,
      gailTrace_envCount, isEnvStepEv]

theorem runTrace_envCount (T : ℕ) (gailOn : Bool) :
    ∀ n, ((runTrace T gailOn n).filter isEnvStepEv).length = n * T := by
  intro n
  induction n with
  | zero => simp [runTrace]
  | succ n ih =>
    simp [runTrace, List.filter_append, iterTrace_envCount, ih, Nat.succ_mul]
    omega

/-! ### The claims -/

/-- Claim C1: in every training iteration of the driver loop the operations
occur in exactly this order — for each of the T steps the policy's `act`,
then the environment step, then the buffer insertion; afterwards the
bootstrap `get_value` call, the optional GAIL reward overwrites, the
estimator's `compute_returns`, the update engine's `update` (which produces
the parameters carried into the next iteration), and finally the buffer's
`after_update` carry-forward reset.  The iteration's event trace equals the
canonical ordered trace `iterTrace`, so no later stage precedes an earlier
stage. -/
theorem claim_C1 {σ : Type} (cfg : Cfg) (pol : PolicyModel)
    (env : EnvStepFn σ) (predict_reward : PredictReward)
    (agent_update : UpdateFn) (draws : ℕ → List ℚ) (p : ℚ) (es : σ)
    (r : Rollouts) (res : IterResult σ) (h0 : r.step = 0)
    (h : iterBody cfg pol env predict_reward agent_update draws p es r =
      some res) :
    res.trace = iterTrace cfg.num_steps cfg.gail :=
  (iterBody_props cfg pol env predict_reward agent_update draws p es r h0
    res h).1

/-- Witness for C1: the tiny one-step driver iteration succeeds and its
trace is the canonical ordered trace. -/
theorem claim_C1_witness :
    tR0.step = 0 ∧
      iterBody tCfg tPol tEnv tPred tUpd (fun _ => [0]) 0 () tR0 =
        some tRes ∧
      tRes.trace = iterTrace tCfg.num_steps tCfg.gail :=
  ⟨rfl, rfl,
    claim_C1 tCfg tPol tEnv tPred tUpd (fun _ => [0]) 0 () tR0 tRes rfl rfl⟩

/-- Claim C4: over a whole run of `main`, every iteration performs exactly
`T = num_steps` buffer insertions between two consecutive `after_update`
calls, with the single `update` after all T insertions of the cycle (the
run's trace is `num_updates` copies of the canonical iteration trace), and
the run never hits the buffer-full insert precondition nor the
buffer-not-full update precondition: the whole run returns `some`. -/
theorem claim_C4 {σ : Type} (cfg : Cfg) (pol : PolicyModel)
    (env : EnvStepFn σ) (predict_reward : PredictReward)
    (agent_update : UpdateFn) (draws : ℕ → ℕ → List ℚ) (es0 : σ)
    (initObs : List Obs) (p0 : ℚ) :
    (runMain cfg pol env predict_reward agent_update draws es0 initObs
        p0).map RunState.trace =
      some (runTrace cfg.num_steps cfg.gail (num_updates cfg)) := by
  obtain ⟨st2, h1, h2⟩ := runMain_spec cfg pol env predict_reward agent_update
    draws es0 initObs p0
  rw [h1]
  simp [h2]

/-- Claim C10: the number of update cycles is
`num_env_steps / num_steps / num_processes` (floor division, in that
order); a run executes exactly `num_updates · num_steps` environment steps,
hence `num_updates · num_steps · num_processes` per-lane transitions, and
that total never exceeds `num_env_steps`. -/
theorem claim_C10 {σ : Type} (cfg : Cfg) (pol : PolicyModel)
    (env : EnvStepFn σ) (predict_reward : PredictReward)
    (agent_update : UpdateFn) (draws : ℕ → ℕ → List ℚ) (es0 : σ)
    (initObs : List Obs) (p0 : ℚ) :
    (runMain cfg pol env predict_reward agent_update draws es0 initObs
        p0).map
        (fun st => (st.trace.filter isEnvStepEv).length * cfg.num_processes)
      = some (num_updates cfg * cfg.num_steps * cfg.num_processes) ∧
    num_updates cfg * cfg.num_steps * cfg.num_processes ≤
      cfg.num_env_steps := by
  constructor
  · obtain ⟨st2, h1, h2⟩ := runMain_spec cfg pol env predict_reward
      agent_update draws es0 initObs p0
    rw [h1]
    simp [h2, runTrace_envCount]
  · unfold num_updates
    calc cfg.num_env_steps / cfg.num_steps / cfg.num_processes *
          cfg.num_steps * cfg.num_processes
        = cfg.num_env_steps / cfg.num_steps / cfg.num_processes *
            cfg.num_processes * cfg.num_steps := by ring
      _ ≤ cfg.num_env_steps / cfg.num_steps * cfg.num_steps :=
          Nat.mul_le_mul_right _ (Nat.div_mul_le_self _ _)
      _ ≤ cfg.num_env_steps := Nat.div_mul_le_self _ _

/-- Claim C3: in every iteration, the bootstrap value handed to
`compute_returns` is exactly the policy's value head `get_value` evaluated
on slot T (the final slot) of the collected buffer — its observation,
recurrent hidden state and mask; the call carries the gradient-tracking
flag `false` (it sits under `torch.no_grad()` and is detached), and in the
iteration's trace it comes after all T insertions and before
`computeReturns`. -/
theorem claim_C3 {σ : Type} (cfg : Cfg) (pol : PolicyModel)
    (env : EnvStepFn σ) (predict_reward : PredictReward)
    (agent_update : UpdateFn) (draws : ℕ → List ℚ) (p : ℚ) (es : σ)
    (r : Rollouts) (st2 : σ × Rollouts) (trc : List Ev)
    (res : IterResult σ) (h0 : r.step = 0)
    (hc : collectLoop cfg pol env draws p cfg.num_steps 0 (es, r) =
      some (st2, trc))
    (h : iterBody cfg pol env predict_reward agent_update draws p es r =
      some res) :
    res.nextValue = pol.get_value p (st2.2.obs.getD cfg.num_steps [])
      (st2.2.recurrent_hidden_states.getD cfg.num_steps [])
      (st2.2.masks.getD cfg.num_steps []) ∧
    res.trace = collectTrace 0 cfg.num_steps ++ [Ev.getValue false]
      ++ (if cfg.gail then gailTrace 0 cfg.num_steps else [])
      ++ [Ev.computeReturns, Ev.update, Ev.afterUpdate] :=
  ⟨iterBody_nextValue cfg pol env predict_reward agent_update draws p es r
      st2 trc hc res h,
    (iterBody_props cfg pol env predict_reward agent_update draws p es r h0
      res h).1⟩

/-- Witness for C3 on the tiny fixtures: the bootstrap is the value head on
slot 1 of the collected buffer, and the trace places the no-grad value call
between the insertions and the returns computation. -/
theorem claim_C3_witness :
    iterBody tCfg tPol tEnv tPred tUpd (fun _ => [0]) 0 () tR0 = some tRes ∧
      tRes.nextValue = tPol.get_value 0 (tCol.1.2.obs.getD tCfg.num_steps [])
        (tCol.1.2.recurrent_hidden_states.getD tCfg.num_steps [])
        (tCol.1.2.masks.getD tCfg.num_steps []) :=
  ⟨rfl,
    (claim_C3 tCfg tPol tEnv tPred tUpd (fun _ => [0]) 0 () tR0 tCol.1 tCol.2
      tRes rfl rfl rfl).1⟩

/-- Claim C5: slot 0 of the buffer is seeded with the environments' initial
reset observation (the seeding happens once, in `runMain`, before the first
cycle), and at the end of every cycle `after_update` makes slot 0's
observation, hidden state and mask identical to slot T of the buffer the
cycle ended with, which is what the next cycle starts from. -/
theorem claim_C5 {σ : Type} (cfg : Cfg) (pol : PolicyModel)
    (env : EnvStepFn σ) (predict_reward : PredictReward)
    (agent_update : UpdateFn) (draws : ℕ → List ℚ) (p : ℚ) (es : σ)
    (r : Rollouts) (res : IterResult σ) (h0 : r.step = 0)
    (hw : r.wf cfg.num_steps)
    (h : iterBody cfg pol env predict_reward agent_update draws p es r =
      some res) :
    (∀ (T N : ℕ) (o : List Obs),
      ((Rollouts.init T N).seedObs o).obs.getD 0 [] = o) ∧
    res.rollouts.obs.getD 0 [] =
      res.preRollouts.obs.getD cfg.num_steps [] ∧
    res.rollouts.recurrent_hidden_states.getD 0 [] =
      res.preRollouts.recurrent_hidden_states.getD cfg.num_steps [] ∧
    res.rollouts.masks.getD 0 [] =
      res.preRollouts.masks.getD cfg.num_steps [] := by
  obtain ⟨_, hroll, _, hwf⟩ := iterBody_props cfg pol env predict_reward
    agent_update draws p es r h0 res h
  obtain ⟨h1, h2, h3, _⟩ := hwf cfg.num_steps hw
  refine ⟨?_, ?_, ?_, ?_⟩
  · intro T N o
    exact getD_set_self _ 0 o [] (by simp [Rollouts.init])
  · rw [hroll]
    exact getD_set_self res.preRollouts.obs 0
      (res.preRollouts.obs.getD cfg.num_steps []) [] (by omega)
  · rw [hroll]
    exact getD_set_self res.preRollouts.recurrent_hidden_states 0
      (res.preRollouts.recurrent_hidden_states.getD cfg.num_steps []) []
      (by omega)
  · rw [hroll]
    exact getD_set_self res.preRollouts.masks 0
      (res.preRollouts.masks.getD cfg.num_steps []) [] (by omega)

/-- Witness for C5 on the tiny fixtures: the seeded slot 0 and the
carry-forward copy both hold concretely. -/
theorem claim_C5_witness :
    tR0.wf tCfg.num_steps ∧
      tR0.obs.getD 0 [] = [[5]] ∧
      tRes.rollouts.obs.getD 0 [] =
        tRes.preRollouts.obs.getD tCfg.num_steps [] :=
  ⟨by decide,
    (claim_C5 tCfg tPol tEnv tPred tUpd (fun _ => [0]) 0 () tR0 tRes rfl
      (by decide) rfl).1 1 1 [[5]],
    (claim_C5 tCfg tPol tEnv tPred tUpd (fun _ => [0]) 0 () tR0 tRes rfl
      (by decide) rfl).2.1⟩

/-- Claim C7: when the GAIL discriminator is enabled, every buffer reward
slot `t` in `0..T-1` ends up holding `predict_reward` applied to that slot's
observation, action, the discount factor and mask, and the iteration's
trace places all T overwrite events before the `computeReturns` event. -/
theorem claim_C7 {σ : Type} (cfg : Cfg) (pol : PolicyModel)
    (env : EnvStepFn σ) (predict_reward : PredictReward)
    (agent_update : UpdateFn) (draws : ℕ → List ℚ) (p : ℚ) (es : σ)
    (r : Rollouts) (res : IterResult σ) (h0 : r.step = 0)
    (hw : r.wf cfg.num_steps) (hg : cfg.gail = true)
    (h : iterBody cfg pol env predict_reward agent_update draws p es r =
      some res) :
    (∀ t, t < cfg.num_steps →
      res.preRollouts.rewards.getD t [] =
        predict_reward (res.preRollouts.obs.getD t [])
          (res.preRollouts.actions.getD t []) cfg.gamma
          (res.preRollouts.masks.getD t [])) ∧
    res.trace = collectTrace 0 cfg.num_steps ++ [Ev.getValue false]
      ++ gailTrace 0 cfg.num_steps
      ++ [Ev.computeReturns, Ev.update, Ev.afterUpdate] := by
  obtain ⟨st2, hc, hstep, hwfc⟩ := collectLoop_spec cfg pol env draws p
    cfg.num_steps 0 (es, r) h0 (by omega)
  have hpre := iterBody_preRollouts cfg pol env predict_reward agent_update
    draws p es r st2 _ hc res h
  simp only [hg, if_true] at hpre
  obtain ⟨ho, _, hm, _, ha, _, _, _, _⟩ :=
    gailOverwrite_fst predict_reward cfg.gamma cfg.num_steps 0 st2.2
  obtain ⟨_, _, _, _, _, _, _, hrl⟩ := hwfc cfg.num_steps hw
  constructor
  · intro t ht
    have hlen : ∀ j, j < cfg.num_steps → 0 + j < st2.2.rewards.length := by
      intro j hj
      omega
    have hres := gailOverwrite_rewards predict_reward cfg.gamma cfg.num_steps
      0 st2.2 hlen t ht
    have h0t : 0 + t = t := by omega
    rw [h0t] at hres
    rw [hpre, ho, ha, hm]
    exact hres
  · simpa [iterTrace, hg] using
      (iterBody_props cfg pol env predict_reward agent_update draws p es r h0
        res h).1

/-- Witness for C7 on the tiny fixtures with GAIL enabled: slot 0's reward
is the discriminator reward of slot 0's observation, action and mask. -/
theorem claim_C7_witness :
    tCfgG.gail = true ∧
      tResG.preRollouts.rewards.getD 0 [] =
        tPred (tResG.preRollouts.obs.getD 0 [])
          (tResG.preRollouts.actions.getD 0 []) tCfgG.gamma
          (tResG.preRollouts.masks.getD 0 []) :=
  ⟨rfl,
    (claim_C7 tCfgG tPol tEnv tPred tUpd (fun _ => [0]) 0 () tR0 tResG rfl
      (by decide) rfl rfl).1 0 (by decide)⟩

/-- Claim C2: for every environment lane `i` at every collected step, the
continuation mask written to the buffer is 0 if the lane's done flag is
true and 1 otherwise, and the valid mask (`bad_masks`) is 0 if the lane's
info dict carries the `bad_transition` key and 1 otherwise.  (The per-lane
equations hold for every index `i`; beyond the lane count both sides are
the default 1.) -/
theorem claim_C2 {σ : Type} (cfg : Cfg) (pol : PolicyModel)
    (env : EnvStepFn σ) (draws : List ℚ) (p : ℚ) (es es2 : σ)
    (r r2 : Rollouts) (s : ℕ) (ao : ActOut) (so : StepOut σ)
    (hact : pol.act p (r.obs.getD s []) (r.recurrent_hidden_states.getD s [])
      (r.masks.getD s []) = ao)
    (henv : env es ao.action = so)
    (hw : r.wf cfg.num_steps) (hlt : r.step < cfg.num_steps)
    (h : collectStep cfg pol env draws p es r s = some (es2, r2)) :
    (∀ i : ℕ, (r2.masks.getD (r.step+1) []).getD i 1 =
      if so.done.getD i false then 0 else 1) ∧
    (∀ i : ℕ, (r2.bad_masks.getD (r.step+1) []).getD i 1 =
      if (so.infos.getD i { bad_transition := false, episode := none
        }).bad_transition then 0 else 1) := by
  obtain ⟨_, _, _, hm, hb, _⟩ := collectStep_fields cfg pol env draws p es
    es2 r r2 s ao so hact henv hlt h
  obtain ⟨_, _, hml, hbl, _⟩ := hw
  constructor
  · intro i
    rw [hm, getD_set_self _ _ _ [] (by omega)]
    exact getD_map_mask so.done i
  · intro i
    rw [hb, getD_set_self _ _ _ [] (by omega)]
    exact getD_map_badmask so.infos i

/-- Witness for C2 on the tiny fixtures: lane 0's continuation and valid
masks at the inserted slot. -/
theorem claim_C2_witness :
    tR0.step < tCfg.num_steps ∧
      (tCS0.2.masks.getD (tR0.step+1) []).getD 0 1 =
        (if tSo.done.getD 0 false then 0 else 1) ∧
      (tCS0.2.bad_masks.getD (tR0.step+1) []).getD 0 1 =
        (if (tSo.infos.getD 0 { bad_transition := false, episode := none
          }).bad_transition then 0 else 1) :=
  ⟨by decide,
    (claim_C2 tCfg tPol tEnv [0] 0 () tCS0.1 tR0 tCS0.2 0 tAo tSo rfl rfl
      (by decide) (by decide) rfl).1 0,
    (claim_C2 tCfg tPol tEnv [0] 0 () tCS0.1 tR0 tCS0.2 0 tAo tSo rfl rfl
      (by decide) (by decide) rfl).2 0⟩

/-- Claim C9: with `args.flicker` set, immediately after the environment
step and before insertion each lane's observation is independently replaced
by the all-zero observation exactly when that lane's uniform draw exceeds
0.5 (an event of probability 1/2 under the uniform distribution on [0,1)),
while the step's action, log-probability, value estimate, reward and
continuation masks are inserted unchanged. -/
theorem claim_C9 {σ : Type} (cfg : Cfg) (pol : PolicyModel)
    (env : EnvStepFn σ) (draws : List ℚ) (p : ℚ) (es es2 : σ)
    (r r2 : Rollouts) (s : ℕ) (ao : ActOut) (so : StepOut σ)
    (hact : pol.act p (r.obs.getD s []) (r.recurrent_hidden_states.getD s [])
      (r.masks.getD s []) = ao)
    (henv : env es ao.action = so)
    (hw : r.wf cfg.num_steps) (hlt : r.step < cfg.num_steps)
    (hf : cfg.flicker = true) (hdl : draws.length = so.obs.length)
    (h : collectStep cfg pol env draws p es r s = some (es2, r2)) :
    (∀ i, i < so.obs.length →
      (r2.obs.getD (r.step+1) []).getD i [] =
        if 1/2 < draws.getD i 0 then (so.obs.getD i []).map (fun _ => (0:ℚ))
        else so.obs.getD i []) ∧
    r2.actions.getD r.step [] = ao.action ∧
    r2.action_log_probs.getD r.step [] = ao.action_log_prob ∧
    r2.value_preds.getD r.step [] = ao.value ∧
    r2.rewards.getD r.step [] = so.reward ∧
    r2.masks.getD (r.step+1) [] =
      (so.done.map fun d => if d then (0:ℚ) else 1) ∧
    MeasureTheory.volume (flickerEvent ∩ Set.Ico (0:ℝ) 1) =
      ENNReal.ofReal (1/2) := by
  obtain ⟨_, ho, _, hm, _, ha, hlp, hv, hrw⟩ := collectStep_fields cfg pol
    env draws p es es2 r r2 s ao so hact henv hlt h
  obtain ⟨hol, _, hml, _, hal, hll, hvl, hrl⟩ := hw
  simp only [hf, if_true] at ho
  refine ⟨?_, ?_, ?_, ?_, ?_, ?_, flickerEvent_volume⟩
  · intro i hi
    rw [ho, getD_set_self _ _ _ [] (by omega)]
    exact flickerObs_getD draws so.obs i hi hdl
  · rw [ha]
    exact getD_set_self _ _ _ [] (by omega)
  · rw [hlp]
    exact getD_set_self _ _ _ [] (by omega)
  · rw [hv]
    exact getD_set_self _ _ _ [] (by omega)
  · rw [hrw]
    exact getD_set_self _ _ _ [] (by omega)
  · rw [hm]
    exact getD_set_self _ _ _ [] (by omega)

/-- Witness for C9 on the tiny fixtures with flickering on and lane draw 1:
the flicker condition in its measure form, and lane 0's inserted
observation obeying the threshold rule. -/
theorem claim_C9_witness :
    tCfgF.flicker = true ∧
      (tCS.2.obs.getD (tR0.step+1) []).getD 0 [] =
        (if 1/2 < ([1] : List ℚ).getD 0 0 then
          (tSo.obs.getD 0 []).map (fun _ => (0:ℚ))
        else tSo.obs.getD 0 []) ∧
      MeasureTheory.volume (flickerEvent ∩ Set.Ico (0:ℝ) 1) =
        ENNReal.ofReal (1/2) :=
  ⟨rfl,
    (claim_C9 tCfgF tPol tEnv [1] 0 () tCS.1 tR0 tCS.2 0 tAo tSo rfl rfl
      (by decide) (by decide) rfl (by decide) rfl).1 0 (by decide),
    (claim_C9 tCfgF tPol tEnv [1] 0 () tCS.1 tR0 tCS.2 0 tAo tSo rfl rfl
      (by decide) (by decide) rfl (by decide) rfl).2.2.2.2.2.2⟩

/-- Counterexample to C8 as stated: two executions of `main` with identical
arguments (`args.flicker` enabled), identical collaborators and identical
initial state differ as soon as their numpy flicker draws differ — and
`main` seeds only the torch generators (src/main.py lines 43–44), never
numpy's global generator, so nothing ties those draws to `args.seed`.  Here
run A draws 1 (lane flickered to zero) and run B draws 0 (observation kept),
and the resulting run states differ. -/
theorem claim_C8_counterexample :
    runMain tCfgF tPol tEnv tPred tUpd (fun _ _ => [1]) () [[5]] 0 ≠
      runMain tCfgF tPol tEnv tPred tUpd (fun _ _ => [0]) () [[5]] 0 := by
  intro h
  have h2 := congrArg (Option.map fun st : RunState Unit =>
    (st.rollouts.obs.getD 1 []).getD 0 []) h
  simp only [runMain, runLoop, iterBody, collectLoop, collectStep,
    gailOverwrite, checkedUpdate, Rollouts.insert, Rollouts.after_update,
    flickerObs, num_updates, Rollouts.seedObs, Rollouts.init,
    tCfgF, tCfg, tPol, tEnv, tPred, tUpd] at h2
  norm_num at h2

/-- Claim C8, amended: for a fixed `args.seed`, two executions of `main`
with identical arguments and identical environment-collaborator behaviour
produce identical action sequences, buffer contents and reported losses —
provided `args.flicker` is disabled.  The whole run is then a pure function
of the seeded inputs: in particular it does not depend on the numpy flicker
draw stream, the one random source `main` leaves unseeded. -/
theorem claim_C8 {σ : Type} (cfg : Cfg) (pol : PolicyModel)
    (env : EnvStepFn σ) (predict_reward : PredictReward)
    (agent_update : UpdateFn) (dA dB : ℕ → ℕ → List ℚ) (es0 : σ)
    (initObs : List Obs) (p0 : ℚ) (hf : cfg.flicker = false) :
    runMain cfg pol env predict_reward agent_update dA es0 initObs p0 =
      runMain cfg pol env predict_reward agent_update dB es0 initObs p0 := by
  unfold runMain
  exact runLoop_draws_indep cfg pol env predict_reward agent_update dA dB hf
    (num_updates cfg) 0 _

/-- Witness for the amended C8: with flickering disabled the tiny run gives
the same result under two different draw streams. -/
theorem claim_C8_witness :
    tCfg.flicker = false ∧
      runMain tCfg tPol tEnv tPred tUpd (fun _ _ => [1]) () [[5]] 0 =
        runMain tCfg tPol tEnv tPred tUpd (fun _ _ => [0]) () [[5]] 0 :=
  ⟨rfl,
    claim_C8 tCfg tPol tEnv tPred tUpd (fun _ _ => [1]) (fun _ _ => [0]) ()
      [[5]] 0 rfl⟩

end IAM

